import Mathlib

/-!
Verification of the Security News Aggregator core against its specification.

The Python sources (`news_fetcher.py`, `ai_analyzer.py`, `update_news.py`) are
shallowly embedded below.  Texts are modelled as lists of characters
(`Str := List Char`), calendar dates as integers (a day index: the SQL
`TEXT` column stores `YYYY-MM-DD` strings, whose lexicographic order and
equality coincide with the day-index order for well-formed dates), the
SQLite `news` table as a list of records, and the environment-dependent
failure points (sqlite connect/commit, the Gemini collaborator, per-item
exceptions) as explicit parameters.
-/

/-- Texts (Python `str`) are modelled as lists of characters. -/
abbrev Str := List Char

/-- ASCII model of Python `str.lower` on a single character
(the keywords and source names used by the program are ASCII). -/
def lowerChar (c : Char) : Char :=
  if 65 ≤ c.toNat ∧ c.toNat ≤ 90 then Char.ofNat (c.toNat + 32) else c

/-- Model of Python `str.lower`. -/
def lowerStr (s : Str) : Str := s.map lowerChar

/-- Model of the Python substring test `needle in hay`. -/
def occursIn (needle : Str) : Str → Bool
  | [] => needle.isEmpty
  | c :: rest => needle.isPrefixOf (c :: rest) || occursIn needle rest

/-- ASCII decimal digit test, modelling `\d` in the regex `\d+`
(the raw date strings the program meets are ASCII). -/
def digit? (c : Char) : Bool := decide (48 ≤ c.toNat ∧ c.toNat ≤ 57)

/-- Numeric value of a decimal digit character. -/
def digitVal (c : Char) : ℕ := c.toNat - 48

/-- Value of a digit run, as computed by Python `int` on the matched text. -/
def digitsVal (ds : Str) : ℕ := ds.foldl (fun a c => 10 * a + digitVal c) 0

/-- The first maximal run of decimal digits in a string, if any:
the text matched by `re.search(r'\d+', s)`. -/
def takeNum : Str → Option Str
  | [] => none
  | c :: rest => if digit? c then some (c :: rest.takeWhile digit?) else takeNum rest

/-- Model of `int(re.search(r'\d+', s).group())`, `none` when the regex
finds no digit (in the source this raises and falls to the handler). -/
def firstNumber (s : Str) : Option ℕ := (takeNum s).map digitsVal

/- ===== ai_analyzer.py ===== -/

/-- The ordered risk levels of `ai_analyzer.get_risk_level` (lines 69). -/
def risk_levels : List Str :=
  ["Critical".data, "High".data, "Medium".data, "Low".data]

/-- The `for level in risk_levels: if level.lower() in analysis.lower(): return level`
loop of `get_risk_level` (lines 70-72); falls through to `'Unknown'`. -/
def pickRisk (analysis : Str) : List Str → Str
  | [] => "Unknown".data
  | lv :: rest =>
    if occursIn (lowerStr lv) (lowerStr analysis) then lv else pickRisk analysis rest

/-- Model of `ai_analyzer.get_risk_level` (lines 64-76).  The `try/except`
there can only fire on a non-string argument, which the embedding excludes
by typing, so the function is the loop plus the `'Unknown'` fall-through. -/
def get_risk_level (analysis : Str) : Str := pickRisk analysis risk_levels

/- ===== news_fetcher.parse_date and its date formats ===== -/

/-- Gregorian leap-year rule, as applied by `datetime`. -/
def isLeap (y : ℕ) : Bool := decide ((y % 4 = 0 ∧ y % 100 ≠ 0) ∨ y % 400 = 0)

/-- Length of a month, as enforced by the `datetime` constructor. -/
def daysInMonth (y m : ℕ) : ℕ :=
  if m = 2 then (if isLeap y then 29 else 28)
  else if m = 4 ∨ m = 6 ∨ m = 9 ∨ m = 11 then 30 else 31

/-- The range checks the `datetime` constructor performs on a parsed date
(`MINYEAR = 1`; a `ValueError` outside the ranges). -/
def dateValid (y m d : ℕ) : Bool :=
  decide (1 ≤ y ∧ 1 ≤ m ∧ m ≤ 12 ∧ 1 ≤ d ∧ d ≤ daysInMonth y m)

/-- Days in year `y` before month `m`. -/
def daysBeforeMonth (y m : ℕ) : ℕ :=
  (List.range (m - 1)).foldl (fun a i => a + daysInMonth y (i + 1)) 0

/-- Day index (rata die) of a Gregorian date: the integer that stands for
the `YYYY-MM-DD` text stored in the database. -/
def ymdToDay (y m d : ℕ) : ℤ :=
  ((365 * (y - 1) + (y - 1) / 4 + (y - 1) / 400 + daysBeforeMonth y m + d : ℕ) : ℤ)
    - (((y - 1) / 100 : ℕ) : ℤ)

/-- Exactly four digits (the `%Y` directive of `strptime`). -/
def take4 : Str → Option (ℕ × Str)
  | a :: b :: c :: d :: rest =>
    if digit? a && digit? b && digit? c && digit? d then
      some (digitVal a * 1000 + digitVal b * 100 + digitVal c * 10 + digitVal d, rest)
    else none
  | _ => none

/-- One or two digits, greedily (the numeric `strptime` directives
`%m`, `%d`, `%H`, `%M`, `%S`; out-of-range values are rejected later by
the `datetime` constructor, an equivalent acceptance set on full-match). -/
def take12 : Str → Option (ℕ × Str)
  | [] => none
  | [c] => if digit? c then some (digitVal c, []) else none
  | c1 :: c2 :: rest =>
    if digit? c1 then
      if digit? c2 then some (digitVal c1 * 10 + digitVal c2, rest)
      else some (digitVal c1, c2 :: rest)
    else none

/-- A literal character of a `strptime` format string. -/
def expect (ch : Char) : Str → Option Str
  | [] => none
  | c :: rest => if c = ch then some rest else none

/-- Model of `datetime.strptime(s, '%Y-%m-%d')` (news_fetcher.py line 38):
`none` is the `ValueError` case. -/
def parseYMD (s : Str) : Option ℤ := do
  let (y, s1) ← take4 s
  let s2 ← expect '-' s1
  let (m, s3) ← take12 s2
  let s4 ← expect '-' s3
  let (d, s5) ← take12 s4
  if s5 = [] ∧ dateValid y m d = true then pure (ymdToDay y m d) else none

/-- Model of `datetime.strptime(s, '%Y-%m-%dT%H:%M:%SZ')` (news_fetcher.py
line 35), truncated to its calendar date by the trailing
`.strftime('%Y-%m-%d')`; `none` is the `ValueError` case. -/
def parseISO (s : Str) : Option ℤ := do
  let (y, s1) ← take4 s
  let s2 ← expect '-' s1
  let (m, s3) ← take12 s2
  let s4 ← expect '-' s3
  let (d, s5) ← take12 s4
  let s6 ← expect 'T' s5
  let (hh, s7) ← take12 s6
  let s8 ← expect ':' s7
  let (mi, s9) ← take12 s8
  let s10 ← expect ':' s9
  let (ss, s11) ← take12 s10
  let s12 ← expect 'Z' s11
  if s12 = [] ∧ dateValid y m d = true ∧ hh ≤ 23 ∧ mi ≤ 59 ∧ ss ≤ 59 then
    pure (ymdToDay y m d)
  else none

/-- Model of `news_fetcher.parse_date` (lines 17-43).  `now` is the calendar
date of `datetime.now()` during the run.  Every exception path of the source
(`re.search` returning `None`, both `strptime` calls failing) lands in the
outer `except`, which returns the current date, so the embedding is total. -/
def parse_date (date_str source : Str) (now : ℤ) : ℤ :=
  if source = "The Hacker News".data then
    if occursIn "ago".data (lowerStr date_str) then
      match firstNumber date_str with
      | none => now
      | some num =>
        if occursIn "day".data (lowerStr date_str) then now - (num : ℤ)
        else if occursIn "hour".data (lowerStr date_str) then now
        else now
    else now
  else if source = "Security Week".data then
    match parseISO date_str with
    | some d => d
    | none =>
      match parseYMD date_str with
      | some d => d
      | none => now
  else now

/-- The spec's notion of a raw date string parsing in a source's expected
format: for The Hacker News a relative-offset string (`'ago'` present and a
number found), for Security Week an ISO-8601 timestamp or a plain
`YYYY-MM-DD` date, and nothing for unregistered sources. -/
def parsesInExpectedFormat (date_str source : Str) : Bool :=
  if source = "The Hacker News".data then
    occursIn "ago".data (lowerStr date_str) && (firstNumber date_str).isSome
  else if source = "Security Week".data then
    (parseISO date_str).isSome || (parseYMD date_str).isSome
  else false

/- ===== news_fetcher.categorize_news ===== -/

/-- The category → keyword map of `categorize_news` (news_fetcher.py lines
89-97), in declaration order (Python dicts preserve insertion order). -/
def categories : List (Str × List Str) :=
  [("Vulnerabilities".data,
     ["vulnerability".data, "exploit".data, "CVE".data, "patch".data,
      "security flaw".data, "zero-day".data]),
   ("Breaches".data,
     ["breach".data, "leak".data, "hack".data, "stolen".data,
      "exposed".data, "compromised".data]),
   ("Threat Intelligence".data,
     ["malware".data, "ransomware".data, "phishing".data, "APT".data,
      "threat actor".data, "campaign".data]),
   ("Compliance".data,
     ["GDPR".data, "compliance".data, "regulation".data, "standard".data,
      "framework".data, "audit".data]),
   ("Cloud Security".data,
     ["cloud".data, "AWS".data, "Azure".data, "GCP".data,
      "container".data, "kubernetes".data]),
   ("Privacy".data,
     ["privacy".data, "data protection".data, "encryption".data,
      "PII".data, "personal data".data]),
   ("Identity & Access".data,
     ["authentication".data, "authorization".data, "IAM".data,
      "identity".data, "access control".data, "SSO".data])]

/-- The per-category scoring loop of `categorize_news` (lines 105-112):
`+2` per keyword found case-insensitively in the title, `+1` per keyword
found in the summary. -/
def catScore (title summary : Str) (kws : List Str) : ℕ :=
  kws.foldl (fun s kw =>
    let s1 := if occursIn (lowerStr kw) (lowerStr title) then s + 2 else s
    if occursIn (lowerStr kw) (lowerStr summary) then s1 + 1 else s1) 0

/-- The `category_scores` dict of `categorize_news` (line 104-112), in
declaration order. -/
def categoryScores (title summary : Str) : List (Str × ℕ) :=
  categories.map (fun p => (p.1, catScore title summary p.2))

/-- `max(category_scores.values())` (line 115). -/
def maxScore (title summary : Str) : ℕ :=
  ((categoryScores title summary).map Prod.snd).foldl Nat.max 0

/-- The `for category in categories.keys(): if score == max: return` loop
(lines 118-120): first category, in declaration order, with the given score. -/
def firstWithScore : List (Str × ℕ) → ℕ → Option Str
  | [], _ => none
  | p :: rest, m => if p.2 = m then some p.1 else firstWithScore rest m

/-- Model of `news_fetcher.categorize_news` (lines 83-123). -/
def categorize_news (title summary : Str) : Str :=
  if 0 < maxScore title summary then
    match firstWithScore (categoryScores title summary) (maxScore title summary) with
    | some c => c
    | none => "Threat Intelligence".data
  else "Threat Intelligence".data

/- ===== ai_analyzer.analyze_security_news ===== -/

/-- Outcome of the `model.generate_content` call in
`analyze_security_news`: a response with a `text` attribute, a response
without one, or a raised exception. -/
inductive GenResult where
  | ok (text : Str)
  | noText
  | raised
deriving DecidableEq

/-- The unavailability message returned when the Gemini model was never
configured (ai_analyzer.py line 28). -/
def unavailable_msg_config : Str :=
  "AI analysis is currently unavailable. Please check your API key and internet connection.".data

/-- The unavailability message returned when the collaborator call fails or
its response lacks text (ai_analyzer.py lines 59 and 62). -/
def unavailable_msg_call : Str :=
  "AI analysis is currently unavailable. Please try again later.".data

/-- Model of `ai_analyzer.analyze_security_news` (lines 23-62).
`modelConfigured` stands for `model is not None`; `resp` is the outcome of
the collaborator call.  The title and summary only enter the prompt, which
is abstracted into `resp`. -/
def analyze_security_news (modelConfigured : Bool) (resp : GenResult)
    (_title _summary : Str) : Str :=
  if modelConfigured = false then unavailable_msg_config
  else
    match resp with
    | .ok t => t
    | .noText => unavailable_msg_call
    | .raised => unavailable_msg_call

/- ===== update_news.py: the news table, store_news, cleanup_old_news ===== -/

/-- A row of the `news` table (update_news.py lines 22-33); the surrogate
`id` column carries no meaning and is omitted. -/
structure Record where
  title : Str
  summary : Str
  source : Str
  url : Str
  date : ℤ
  category : Str
  ai_analysis : Str
  risk_level : Str
deriving DecidableEq

/-- An item produced by a source adapter, as consumed by `store_news`
(one DataFrame row). -/
structure NewsItem where
  title : Str
  summary : Str
  source : Str
  url : Str
  date : ℤ
  category : Str
deriving DecidableEq

/-- Number of stored records carrying a given URL. -/
def countUrl (db : List Record) (u : Str) : ℕ :=
  (db.filter (fun r => decide (r.url = u))).length

/-- The per-item/per-run counters logged by `store_news`
(update_news.py lines 50-52). -/
structure StoreStats where
  new_items : ℕ
  existing_items : ℕ
  error_items : ℕ
deriving DecidableEq

/-- Storage-level failures that escape `update_news.main`. -/
inductive StorageFailure where
  | initFailure
  | storeFailure
deriving DecidableEq

/-- The body of the `for` loop of `store_news` (update_news.py lines 56-97):
a per-item exception is counted and skipped (`except ... continue`);
otherwise the `SELECT url FROM news WHERE url = ?` membership check decides
between counting the row as existing and inserting the enriched row.
`itemFails` marks the items whose processing raises. -/
def storeStep (analyze : Str → Str → Str) (itemFails : NewsItem → Bool)
    (acc : List Record × StoreStats) (item : NewsItem) : List Record × StoreStats :=
  if itemFails item then
    (acc.1, { acc.2 with error_items := acc.2.error_items + 1 })
  else if acc.1.any (fun r => decide (r.url = item.url)) then
    (acc.1, { acc.2 with existing_items := acc.2.existing_items + 1 })
  else
    let a := analyze item.title item.summary
    (acc.1 ++ [⟨item.title, item.summary, item.source, item.url, item.date,
               item.category, a, get_risk_level a⟩],
     { acc.2 with new_items := acc.2.new_items + 1 })

/-- Model of `update_news.store_news` (lines 43-106).  `connectFails` and
`commitFails` stand for the `sqlite3.connect` and `conn.commit` calls
raising; either error reaches the outer `except`, which re-raises
(lines 101-103), and an uncommitted transaction leaves the table unchanged,
so both are modelled as an error result that discards the fold. -/
def store_news (analyze : Str → Str → Str) (itemFails : NewsItem → Bool)
    (connectFails commitFails : Bool) (items : List NewsItem)
    (db : List Record) : Except StorageFailure (List Record × StoreStats) :=
  if connectFails then .error .storeFailure
  else if commitFails then .error .storeFailure
  else .ok (items.foldl (storeStep analyze itemFails) (db, ⟨0, 0, 0⟩))

/-- Model of `update_news.cleanup_old_news` (lines 108-127): deletes the
rows with `date < date('now', '-90 days')` and reports `cursor.rowcount`.
Its own `except` swallows errors, so it never propagates a failure. -/
def cleanup_old_news (db : List Record) (now : ℤ) : List Record × ℕ :=
  (db.filter (fun r => !decide (r.date < now - 90)),
   (db.filter (fun r => decide (r.date < now - 90))).length)

/- ===== news_fetcher fetch functions and update_news.main ===== -/

/-- The raw fields one article's HTML yields before normalization
(title, summary, link, raw date string). -/
structure RawArticle where
  title : Str
  summary : Str
  link : Str
  dateStr : Str

/-- The Security Week URL fix-up (news_fetcher.py line 155). -/
def swUrl (link : Str) : Str :=
  if "http".data.isPrefixOf link then link
  else "https://www.securityweek.com".data ++ link

/-- Model of `news_fetcher.fetch_security_week` (lines 125-167) applied to
the articles extracted from the page: each article is dated by
`parse_date`, skipped when a `target_date` is supplied and does not match,
and otherwise emitted with its category. -/
def fetch_security_week (articles : List RawArticle) (target_date : Option ℤ)
    (now : ℤ) : List NewsItem :=
  articles.filterMap (fun a =>
    let article_date := parse_date a.dateStr "Security Week".data now
    match target_date with
    | some t =>
      if article_date = t then
        some ⟨a.title, a.summary, "Security Week".data, swUrl a.link,
              article_date, categorize_news a.title a.summary⟩
      else none
    | none =>
      some ⟨a.title, a.summary, "Security Week".data, swUrl a.link,
            article_date, categorize_news a.title a.summary⟩)

/-- Model of `news_fetcher.fetch_hacker_news` (lines 169-211), analogous. -/
def fetch_hacker_news (articles : List RawArticle) (target_date : Option ℤ)
    (now : ℤ) : List NewsItem :=
  articles.filterMap (fun a =>
    let article_date := parse_date a.dateStr "The Hacker News".data now
    match target_date with
    | some t =>
      if article_date = t then
        some ⟨a.title, a.summary, "The Hacker News".data, a.link,
              article_date, categorize_news a.title a.summary⟩
      else none
    | none =>
      some ⟨a.title, a.summary, "The Hacker News".data, a.link,
            article_date, categorize_news a.title a.summary⟩)

/-- The environment one run of `update_news.main` executes in: the initial
table contents, the articles each source page yields (with a flag for the
adapter call raising), the storage failure points, the per-item failure
points, and the collaborator state. -/
structure Env where
  db0 : List Record
  now : ℤ
  initFails : Bool
  swFails : Bool
  hnFails : Bool
  swArticles : List RawArticle
  hnArticles : List RawArticle
  connectFails : Bool
  commitFails : Bool
  itemFails : NewsItem → Bool
  modelConfigured : Bool
  genResult : Str → Str → GenResult

/-- The enrichment function one run uses: `analyze_security_news` with the
run's collaborator state. -/
def envAnalyze (e : Env) : Str → Str → Str :=
  fun t s => analyze_security_news e.modelConfigured (e.genResult t s) t s

/-- Model of `news_fetcher.fetch_security_news` (lines 45-81): each
adapter's errors are caught per source (lines 54-67), a failing adapter
contributing zero items, and the results are concatenated.  The DataFrame
date sort (line 73) only permutes the items and is omitted; no claim
depends on item order. -/
def fetch_security_news (e : Env) (target_date : Option ℤ) : List NewsItem :=
  (if e.swFails then [] else fetch_security_week e.swArticles target_date e.now) ++
  (if e.hnFails then [] else fetch_hacker_news e.hnArticles target_date e.now)

/-- Model of `update_news.update_article_dates` (lines 129-206) on
well-formed dates: Hacker News rows dated yesterday are re-dated to today;
the bad-format branch only fires on rows whose `date` text is not
`YYYY-MM-DD`-shaped, which the day-index model excludes.  Its `except`
swallows errors. -/
def update_article_dates (db : List Record) (now : ℤ) : List Record :=
  db.map (fun r =>
    if r.source = "The Hacker News".data ∧ r.date = now - 1 then
      { r with date := now }
    else r)

/-- The item list `update_news.main` stores (lines 220-226): today's
filtered fetch, replaced by an unfiltered fetch when it is empty. -/
def mainItems (e : Env) : List NewsItem :=
  let filtered := fetch_security_news e (some e.now)
  if filtered.isEmpty then fetch_security_news e none else filtered

/-- Model of `update_news.main` (lines 208-244): `init_db` failure
re-raises (lines 36-38, 242-244); with no items nothing further runs;
otherwise `store_news` runs (re-raising its storage failures through
`main`'s own `raise`), then the date fix-up, then the retention sweep.
Returns the final table plus, when storing ran, its counters and the
sweep's deletion count. -/
def main_run (e : Env) : Except StorageFailure (List Record × Option (StoreStats × ℕ)) :=
  if e.initFails then .error .initFailure
  else
    let items := mainItems e
    if items.isEmpty then .ok (e.db0, none)
    else
      match store_news (envAnalyze e) e.itemFails e.connectFails e.commitFails
          items e.db0 with
      | .error f => .error f
      | .ok (db1, st) =>
        let db2 := update_article_dates db1 e.now
        let swept := cleanup_old_news db2 e.now
        .ok (swept.1, some (st, swept.2))

/- ==================== Theorems ==================== -/

/- Helper lemmas about the fold computing the maximum score and about the
first-match loop. -/

lemma le_foldlMax_init (l : List ℕ) : ∀ a, a ≤ l.foldl Nat.max a := by
  induction l with
  | nil => intro a; exact Nat.le_refl a
  | cons x t ih =>
    intro a
    exact Nat.le_trans (Nat.le_max_left a x) (ih (Nat.max a x))

lemma mem_le_foldlMax (l : List ℕ) : ∀ a x, x ∈ l → x ≤ l.foldl Nat.max a := by
  induction l with
  | nil => intro a x hx; cases hx
  | cons y t ih =>
    intro a x hx
    rcases List.mem_cons.mp hx with h | h
    · subst h
      exact Nat.le_trans (Nat.le_max_right a x) (le_foldlMax_init t (Nat.max a x))
    · exact ih (Nat.max a y) x h

lemma foldlMax_mem (l : List ℕ) : ∀ a, l.foldl Nat.max a = a ∨ l.foldl Nat.max a ∈ l := by
  induction l with
  | nil => intro a; left; rfl
  | cons y t ih =>
    intro a
    rcases ih (Nat.max a y) with h | h
    · rcases Nat.le_total a y with hy | hy
      · right
        have hmax : Nat.max a y = y := Nat.max_eq_right hy
        rw [List.foldl_cons, h, hmax]
        exact List.mem_cons_self y t
      · left
        have hmax : Nat.max a y = a := Nat.max_eq_left hy
        rw [List.foldl_cons, h, hmax]
    · right
      exact List.mem_cons_of_mem y h

lemma firstWithScore_split (m : ℕ) (c : Str) :
    ∀ l : List (Str × ℕ), firstWithScore l m = some c →
      ∃ pre p post, l = pre ++ p :: post ∧ p.1 = c ∧ p.2 = m ∧ ∀ q ∈ pre, q.2 ≠ m := by
  intro l
  induction l with
  | nil => intro h; cases h
  | cons p t ih =>
    intro h
    by_cases hp : p.2 = m
    · refine ⟨[], p, t, by simp, ?_, hp, by simp⟩
      have : some p.1 = some c := by simpa [firstWithScore, hp] using h
      exact Option.some.inj this
    · have h' : firstWithScore t m = some c := by simpa [firstWithScore, hp] using h
      obtain ⟨pre, q, post, heq, h1, h2, h3⟩ := ih h'
      refine ⟨p :: pre, q, post, by rw [heq]; rfl, h1, h2, ?_⟩
      intro x hx
      rcases List.mem_cons.mp hx with hx | hx
      · subst hx; exact hp
      · exact h3 x hx

lemma firstWithScore_isSome (m : ℕ) :
    ∀ l : List (Str × ℕ), (∃ p ∈ l, p.2 = m) → ∃ c, firstWithScore l m = some c := by
  intro l
  induction l with
  | nil => rintro ⟨p, hp, _⟩; cases hp
  | cons p t ih =>
    rintro ⟨q, hq, hqm⟩
    by_cases hp : p.2 = m
    · exact ⟨p.1, by simp [firstWithScore, hp]⟩
    · rcases List.mem_cons.mp hq with h | h
      · subst h; exact absurd hqm hp
      · obtain ⟨c, hc⟩ := ih ⟨q, h, hqm⟩
        exact ⟨c, by simpa [firstWithScore, hp] using hc⟩

/-- Claim C3: `categorize_news` scores each category as 2 per keyword in the
title plus 1 per keyword in the summary (case-insensitively), returns the
first category in declaration order attaining the maximum score, and the
fallback `Threat Intelligence` when the maximum is 0; on the CVE example it
yields `Vulnerabilities`. -/
theorem categorize_news_weighted_priority :
    (∀ t s : Str,
      (∀ q ∈ categoryScores t s, q.2 ≤ maxScore t s) ∧
      (maxScore t s = 0 → categorize_news t s = "Threat Intelligence".data) ∧
      (0 < maxScore t s → ∃ pre p post,
        categoryScores t s = pre ++ p :: post ∧
        categorize_news t s = p.1 ∧ p.2 = maxScore t s ∧
        ∀ q ∈ pre, q.2 < maxScore t s)) ∧
    categorize_news "Critical vulnerability CVE-2024-1234 exploited".data "...".data
      = "Vulnerabilities".data := by
  constructor
  · intro t s
    refine ⟨?_, ?_, ?_⟩
    · intro q hq
      exact mem_le_foldlMax _ 0 q.2 (List.mem_map.mpr ⟨q, hq, rfl⟩)
    · intro h0
      unfold categorize_news
      rw [if_neg]
      omega
    · intro hpos
      have hmem : maxScore t s ∈ (categoryScores t s).map Prod.snd := by
        rcases foldlMax_mem ((categoryScores t s).map Prod.snd) 0 with h | h
        · exfalso; rw [maxScore] at hpos; omega
        · exact h
      obtain ⟨q, hq, hq2⟩ := List.mem_map.mp hmem
      obtain ⟨c, hc⟩ := firstWithScore_isSome (maxScore t s) (categoryScores t s) ⟨q, hq, hq2⟩
      obtain ⟨pre, p, post, heq, h1, h2, h3⟩ := firstWithScore_split _ _ _ hc
      refine ⟨pre, p, post, heq, ?_, h2, ?_⟩
      · unfold categorize_news
        rw [if_pos hpos, hc, h1]
      · intro x hx
        have hle : x.2 ≤ maxScore t s := by
          refine mem_le_foldlMax _ 0 x.2 (List.mem_map.mpr ⟨x, ?_, rfl⟩)
        -- x is in the prefix, hence in the whole score list
          rw [heq]
          exact List.mem_append.mpr (Or.inl hx)
        exact Nat.lt_of_le_of_ne hle (h3 x hx)
  · decide

/-- Claim C2: for every analysis text, `get_risk_level` returns the first of
Critical, High, Medium, Low — checked in that fixed priority order — whose
name occurs case-insensitively as a substring of the text, and `Unknown`
when none occurs; on the text mentioning both Medium and Critical it
returns Critical. -/
theorem get_risk_level_priority_order :
    (∀ a : Str, get_risk_level a =
      (if occursIn "critical".data (lowerStr a) then "Critical".data
       else if occursIn "high".data (lowerStr a) then "High".data
       else if occursIn "medium".data (lowerStr a) then "Medium".data
       else if occursIn "low".data (lowerStr a) then "Low".data
       else "Unknown".data)) ∧
    get_risk_level "This issue is rated Medium, though some call it Critical".data
      = "Critical".data := by
  constructor
  · intro a
    have h1 : lowerStr "Critical".data = "critical".data := by decide
    have h2 : lowerStr "High".data = "high".data := by decide
    have h3 : lowerStr "Medium".data = "medium".data := by decide
    have h4 : lowerStr "Low".data = "low".data := by decide
    simp only [get_risk_level, risk_levels, pickRisk, h1, h2, h3, h4]
  · decide
/-- Claim C10: for every source other than The Hacker News and Security
Week, `parse_date` returns the current date regardless of the raw date
string, even when the string is a well-formed ISO-8601 or `YYYY-MM-DD`
date. -/
theorem parse_date_unregistered_source (date_str source : Str) (now : ℤ)
    (h1 : source ≠ "The Hacker News".data)
    (h2 : source ≠ "Security Week".data) :
    parse_date date_str source now = now := by
  unfold parse_date
  rw [if_neg h1, if_neg h2]

/-- Witness for C10: an unregistered source with a well-formed
`YYYY-MM-DD` date string still gets today's date. -/
theorem parse_date_unregistered_source_witness :
    parse_date "2024-01-15".data "Wired".data 777 = 777 :=
  parse_date_unregistered_source "2024-01-15".data "Wired".data 777
    (by decide) (by decide)

/-- Claim C4: `parse_date` is total (the embedding is a total function:
every exception path of the source returns), and on every raw date string
that does not parse in the source's expected format it returns today's
date. -/
theorem parse_date_unparseable_fallback (date_str source : Str) (now : ℤ)
    (h : parsesInExpectedFormat date_str source = false) :
    parse_date date_str source now = now := by
  unfold parsesInExpectedFormat at h
  unfold parse_date
  by_cases hs1 : source = "The Hacker News".data
  · rw [if_pos hs1]
    rw [if_pos hs1] at h
    cases hago : occursIn "ago".data (lowerStr date_str) with
    | false => simp [hago]
    | true =>
      rw [hago] at h
      simp only [Bool.true_and] at h
      cases hfn : firstNumber date_str with
      | none => simp [hago, hfn]
      | some n => rw [hfn] at h; simp at h
  · rw [if_neg hs1]
    rw [if_neg hs1] at h
    by_cases hs2 : source = "Security Week".data
    · rw [if_pos hs2]
      rw [if_pos hs2] at h
      cases hiso : parseISO date_str with
      | some d => rw [hiso] at h; simp at h
      | none =>
        cases hymd : parseYMD date_str with
        | some d => rw [hymd] at h; simp at h
        | none => simp [hiso, hymd]
    · rw [if_neg hs2]

/-- Witness for C4: a malformed Security Week date string falls back to
today's date. -/
theorem parse_date_unparseable_fallback_witness :
    parse_date "not a date".data "Security Week".data 500 = 500 :=
  parse_date_unparseable_fallback "not a date".data "Security Week".data 500
    (by decide)

/-- Claim C5: the retention sweep keeps exactly the stored records whose
date is not strictly older than today minus 90 days (so it deletes exactly
the strictly older ones), and a second consecutive sweep with no inserts in
between deletes 0 records. -/
theorem cleanup_old_news_retention :
    ∀ (db : List Record) (now : ℤ),
      (∀ r : Record, r ∈ (cleanup_old_news db now).1 ↔
        r ∈ db ∧ ¬(r.date < now - 90)) ∧
      (cleanup_old_news db now).2
        = (db.filter (fun r => decide (r.date < now - 90))).length ∧
      (cleanup_old_news (cleanup_old_news db now).1 now).2 = 0 := by
  intro db now
  refine ⟨?_, rfl, ?_⟩
  · intro r
    simp [cleanup_old_news, List.mem_filter]
  · simp only [cleanup_old_news]
    rw [List.length_eq_zero, List.filter_eq_nil_iff]
    intro r hr
    have := (List.mem_filter.mp hr).2
    simp at this ⊢
    omega
/- Helper lemmas about `countUrl` and the membership check of
`store_news`. -/

lemma any_url_eq_false {db : List Record} {u : Str} (h : countUrl db u = 0) :
    db.any (fun r => decide (r.url = u)) = false := by
  rw [countUrl, List.length_eq_zero] at h
  rw [Bool.eq_false_iff]
  intro htrue
  obtain ⟨r, hr, hru⟩ := List.any_eq_true.mp htrue
  have hmem : r ∈ db.filter (fun r => decide (r.url = u)) :=
    List.mem_filter.mpr ⟨hr, hru⟩
  rw [h] at hmem
  cases hmem

lemma countUrl_append_single (db : List Record) (r : Record) (u : Str) :
    countUrl (db ++ [r]) u
      = countUrl db u + (if r.url = u then 1 else 0) := by
  rw [countUrl, countUrl, List.filter_append, List.length_append]
  by_cases hru : r.url = u
  · simp [hru]
  · simp [hru]

/-- The enriched row `store_news` inserts for a fresh item. -/
def insertedRecord (analyze : Str → Str → Str) (item : NewsItem) : Record :=
  ⟨item.title, item.summary, item.source, item.url, item.date, item.category,
   analyze item.title item.summary, get_risk_level (analyze item.title item.summary)⟩

lemma storeStep_fresh (analyze : Str → Str → Str) (db : List Record)
    (st : StoreStats) (item : NewsItem)
    (hany : db.any (fun r => decide (r.url = item.url)) = false) :
    storeStep analyze (fun _ => false) (db, st) item
      = (db ++ [insertedRecord analyze item],
         { st with new_items := st.new_items + 1 }) := by
  simp [storeStep, hany, insertedRecord]

lemma storeStep_existing (analyze : Str → Str → Str) (db : List Record)
    (st : StoreStats) (item : NewsItem)
    (hany : db.any (fun r => decide (r.url = item.url)) = true) :
    storeStep analyze (fun _ => false) (db, st) item
      = (db, { st with existing_items := st.existing_items + 1 }) := by
  simp [storeStep, hany]

/-- Claim C1: storing an item with a previously unseen URL twice — within
one run or across two consecutive runs — leaves exactly one stored record
with that URL; the second attempt is counted as an existing (benign
duplicate) item, not as an error. -/
theorem store_news_idempotent_dedup (analyze : Str → Str → Str)
    (i1 i2 : NewsItem) (db : List Record)
    (hurl : i2.url = i1.url) (h0 : countUrl db i1.url = 0) :
    (∃ db1 st1,
      store_news analyze (fun _ => false) false false [i1, i2] db = .ok (db1, st1) ∧
      countUrl db1 i1.url = 1 ∧ st1 = ⟨1, 1, 0⟩) ∧
    (∃ db1 st1 db2 st2,
      store_news analyze (fun _ => false) false false [i1] db = .ok (db1, st1) ∧
      store_news analyze (fun _ => false) false false [i2] db1 = .ok (db2, st2) ∧
      countUrl db2 i1.url = 1 ∧ st2 = ⟨0, 1, 0⟩) := by
  have hany : db.any (fun r => decide (r.url = i1.url)) = false :=
    any_url_eq_false h0
  have hc1 : countUrl (db ++ [insertedRecord analyze i1]) i1.url = 1 := by
    rw [countUrl_append_single, h0]
    norm_num [insertedRecord]
  have hany2 :
      (db ++ [insertedRecord analyze i1]).any
        (fun r => decide (r.url = i2.url)) = true := by
    refine List.any_eq_true.mpr ⟨insertedRecord analyze i1, ?_, ?_⟩
    · exact List.mem_append.mpr (Or.inr (List.mem_singleton.mpr rfl))
    · simp [insertedRecord, hurl]
  constructor
  · refine ⟨db ++ [insertedRecord analyze i1], ⟨1, 1, 0⟩, ?_, hc1, rfl⟩
    show Except.ok (List.foldl (storeStep analyze (fun _ => false)) (db, ⟨0, 0, 0⟩) [i1, i2]) = _
    rw [List.foldl_cons, storeStep_fresh analyze db ⟨0, 0, 0⟩ i1 hany,
        List.foldl_cons, storeStep_existing analyze _ _ i2 hany2, List.foldl_nil]
  · refine ⟨db ++ [insertedRecord analyze i1], ⟨1, 0, 0⟩, db ++ [insertedRecord analyze i1],
      ⟨0, 1, 0⟩, ?_, ?_, hc1, rfl⟩
    · show Except.ok (List.foldl (storeStep analyze (fun _ => false)) (db, ⟨0, 0, 0⟩) [i1]) = _
      rw [List.foldl_cons, storeStep_fresh analyze db ⟨0, 0, 0⟩ i1 hany, List.foldl_nil]
    · show Except.ok (List.foldl (storeStep analyze (fun _ => false))
        (db ++ [insertedRecord analyze i1], ⟨0, 0, 0⟩) [i2]) = _
      rw [List.foldl_cons, storeStep_existing analyze _ _ i2 hany2, List.foldl_nil]

/-- Witness for C1: a concrete item stored twice into an empty table. -/
theorem store_news_idempotent_dedup_witness :
    (∃ db1 st1,
      store_news (fun _ _ => []) (fun _ => false) false false
        [⟨"t".data, "s".data, "src".data, "http://u".data, 0, "c".data⟩,
         ⟨"t".data, "s".data, "src".data, "http://u".data, 0, "c".data⟩] []
        = .ok (db1, st1) ∧
      countUrl db1 "http://u".data = 1 ∧ st1 = ⟨1, 1, 0⟩) ∧
    (∃ db1 st1 db2 st2,
      store_news (fun _ _ => []) (fun _ => false) false false
        [⟨"t".data, "s".data, "src".data, "http://u".data, 0, "c".data⟩] []
        = .ok (db1, st1) ∧
      store_news (fun _ _ => []) (fun _ => false) false false
        [⟨"t".data, "s".data, "src".data, "http://u".data, 0, "c".data⟩] db1
        = .ok (db2, st2) ∧
      countUrl db2 "http://u".data = 1 ∧ st2 = ⟨0, 1, 0⟩) :=
  store_news_idempotent_dedup (fun _ _ => [])
    ⟨"t".data, "s".data, "src".data, "http://u".data, 0, "c".data⟩
    ⟨"t".data, "s".data, "src".data, "http://u".data, 0, "c".data⟩ []
    rfl (by decide)
/-- Claim C7: on any enrichment collaborator failure (model unconfigured,
the call raising, or the response lacking text), `analyze_security_news`
returns one of its fixed unavailability messages instead of propagating the
failure, `get_risk_level` on that message yields `Unknown`, and the item is
still persisted with the unavailability message and `Unknown` risk level. -/
theorem analyze_failure_persists_unknown (cfg : Bool) (resp : GenResult)
    (item : NewsItem) (db : List Record)
    (hfail : cfg = false ∨ resp = .noText ∨ resp = .raised)
    (hfresh : countUrl db item.url = 0) :
    (analyze_security_news cfg resp item.title item.summary = unavailable_msg_config ∨
     analyze_security_news cfg resp item.title item.summary = unavailable_msg_call) ∧
    get_risk_level (analyze_security_news cfg resp item.title item.summary)
      = "Unknown".data ∧
    store_news (fun t s => analyze_security_news cfg resp t s) (fun _ => false)
        false false [item] db
      = .ok (db ++ [⟨item.title, item.summary, item.source, item.url, item.date,
              item.category, analyze_security_news cfg resp item.title item.summary,
              "Unknown".data⟩], ⟨1, 0, 0⟩) := by
  have hmsg :
      analyze_security_news cfg resp item.title item.summary = unavailable_msg_config ∨
      analyze_security_news cfg resp item.title item.summary = unavailable_msg_call := by
    rcases hfail with h | h | h
    · left; simp [analyze_security_news, h]
    · cases cfg
      · left; simp [analyze_security_news]
      · right; simp [analyze_security_news, h]
    · cases cfg
      · left; simp [analyze_security_news]
      · right; simp [analyze_security_news, h]
  have hunk : get_risk_level (analyze_security_news cfg resp item.title item.summary)
      = "Unknown".data := by
    rcases hmsg with h | h <;> rw [h] <;> decide
  refine ⟨hmsg, hunk, ?_⟩
  have hany : db.any (fun r => decide (r.url = item.url)) = false :=
    any_url_eq_false hfresh
  show Except.ok (List.foldl
      (storeStep (fun t s => analyze_security_news cfg resp t s) (fun _ => false))
      (db, ⟨0, 0, 0⟩) [item]) = _
  rw [List.foldl_cons, storeStep_fresh _ db ⟨0, 0, 0⟩ item hany, List.foldl_nil]
  rw [insertedRecord]
  rw [hunk]

/-- Witness for C7: a raised collaborator call on a concrete fresh item. -/
theorem analyze_failure_persists_unknown_witness :
    (analyze_security_news true .raised "t".data "s".data = unavailable_msg_config ∨
     analyze_security_news true .raised "t".data "s".data = unavailable_msg_call) ∧
    get_risk_level (analyze_security_news true .raised "t".data "s".data)
      = "Unknown".data ∧
    store_news (fun t s => analyze_security_news true .raised t s) (fun _ => false)
        false false [⟨"t".data, "s".data, "src".data, "http://u2".data, 0, "c".data⟩] []
      = .ok ([⟨"t".data, "s".data, "src".data, "http://u2".data, 0, "c".data,
              analyze_security_news true .raised "t".data "s".data,
              "Unknown".data⟩], ⟨1, 0, 0⟩) :=
  analyze_failure_persists_unknown true .raised
    ⟨"t".data, "s".data, "src".data, "http://u2".data, 0, "c".data⟩ []
    (Or.inr (Or.inr rfl)) (by decide)
/- Helper lemmas about substring search, lowercasing and digit runs, for
the relative-offset date claims. -/

lemma occursIn_append_right (n h2 : Str) (h : occursIn n h2 = true) :
    ∀ h1 : Str, occursIn n (h1 ++ h2) = true := by
  intro h1
  induction h1 with
  | nil => simpa using h
  | cons c t ih =>
    rw [List.cons_append, occursIn, ih, Bool.or_true]

lemma prefix_chars : ∀ n h : Str, n.isPrefixOf h = true → ∀ c ∈ n, c ∈ h := by
  intro n
  induction n with
  | nil => intro h _ c hc; cases hc
  | cons a as ih =>
    intro h hp c hc
    cases h with
    | nil => simp [List.isPrefixOf] at hp
    | cons b bs =>
      simp only [List.isPrefixOf, Bool.and_eq_true, beq_iff_eq] at hp
      rcases List.mem_cons.mp hc with hca | hca
      · rw [hca, hp.1]; exact List.mem_cons_self b bs
      · exact List.mem_cons_of_mem b (ih bs hp.2 c hca)

lemma occursIn_chars (n : Str) : ∀ h : Str, occursIn n h = true → ∀ c ∈ n, c ∈ h := by
  intro h
  induction h with
  | nil =>
    intro hoc c hc
    cases n with
    | nil => cases hc
    | cons a as => simp [occursIn, List.isEmpty] at hoc
  | cons b bs ih =>
    intro hoc c hc
    rw [occursIn, Bool.or_eq_true] at hoc
    rcases hoc with hp | ho
    · exact prefix_chars n (b :: bs) hp c hc
    · exact List.mem_cons_of_mem b (ih ho c hc)

lemma lowerChar_digit {c : Char} (h : digit? c = true) : lowerChar c = c := by
  simp only [digit?, decide_eq_true_eq] at h
  unfold lowerChar
  rw [if_neg (by omega)]

lemma lowerStr_digits : ∀ ds : Str, (∀ c ∈ ds, digit? c = true) → lowerStr ds = ds := by
  intro ds
  induction ds with
  | nil => intro _; rfl
  | cons c t ih =>
    intro h
    show lowerChar c :: lowerStr t = c :: t
    rw [lowerChar_digit (h c (List.mem_cons_self c t)),
        ih (fun x hx => h x (List.mem_cons_of_mem c hx))]

lemma takeWhile_append_stop (p : Char → Bool) :
    ∀ (t : Str) (c : Char) (rs : Str), (∀ x ∈ t, p x = true) → p c = false →
      (t ++ c :: rs).takeWhile p = t := by
  intro t
  induction t with
  | nil =>
    intro c rs _ hc
    simp [List.takeWhile_cons, hc]
  | cons x t' ih =>
    intro c rs h hc
    have hx := h x (List.mem_cons_self x t')
    rw [List.cons_append, List.takeWhile_cons, hx]
    simp only [ite_true]
    rw [ih c rs (fun y hy => h y (List.mem_cons_of_mem x hy)) hc]

lemma takeNum_digits_append : ∀ ds : Str, ds ≠ [] → (∀ c ∈ ds, digit? c = true) →
    ∀ (c : Char) (rs : Str), digit? c = false →
      takeNum (ds ++ c :: rs) = some ds := by
  intro ds hne hdig c rs hc
  cases ds with
  | nil => exact absurd rfl hne
  | cons d t =>
    have hd := hdig d (List.mem_cons_self d t)
    show takeNum (d :: (t ++ c :: rs)) = some (d :: t)
    rw [takeNum, if_pos hd,
        takeWhile_append_stop digit? t c rs
          (fun y hy => hdig y (List.mem_cons_of_mem d hy)) hc]

/-- Claim C8: for The Hacker News, `parse_date` maps a raw string of the
form `N days ago` to the current date minus `N` days, and `N hours ago` to
the current date (sub-day precision is discarded even when N ≥ 24). -/
theorem parse_date_relative_offsets (ds : Str) (now : ℤ)
    (hne : ds ≠ []) (hdig : ∀ c ∈ ds, digit? c = true) :
    parse_date (ds ++ " days ago".data) "The Hacker News".data now
      = now - (digitsVal ds : ℤ) ∧
    parse_date (ds ++ " hours ago".data) "The Hacker News".data now = now := by
  have hlds : lowerStr ds = ds := lowerStr_digits ds hdig
  have hlow1 : lowerStr (ds ++ " days ago".data) = ds ++ " days ago".data := by
    rw [lowerStr, List.map_append, ← lowerStr, ← lowerStr, hlds]
    rw [show lowerStr " days ago".data = " days ago".data from by decide]
  have hlow2 : lowerStr (ds ++ " hours ago".data) = ds ++ " hours ago".data := by
    rw [lowerStr, List.map_append, ← lowerStr, ← lowerStr, hlds]
    rw [show lowerStr " hours ago".data = " hours ago".data from by decide]
  have hsp1 : (" days ago".data : Str) = ' ' :: "days ago".data := by decide
  have hsp2 : (" hours ago".data : Str) = ' ' :: "hours ago".data := by decide
  have hfn1 : firstNumber (ds ++ " days ago".data) = some (digitsVal ds) := by
    rw [firstNumber, hsp1,
        takeNum_digits_append ds hne hdig ' ' "days ago".data (by decide)]
    rfl
  have hfn2 : firstNumber (ds ++ " hours ago".data) = some (digitsVal ds) := by
    rw [firstNumber, hsp2,
        takeNum_digits_append ds hne hdig ' ' "hours ago".data (by decide)]
    rfl
  have hago1 : occursIn "ago".data (lowerStr (ds ++ " days ago".data)) = true := by
    rw [hlow1]; exact occursIn_append_right _ _ (by decide) ds
  have hago2 : occursIn "ago".data (lowerStr (ds ++ " hours ago".data)) = true := by
    rw [hlow2]; exact occursIn_append_right _ _ (by decide) ds
  have hday1 : occursIn "day".data (lowerStr (ds ++ " days ago".data)) = true := by
    rw [hlow1]; exact occursIn_append_right _ _ (by decide) ds
  have hhour2 : occursIn "hour".data (lowerStr (ds ++ " hours ago".data)) = true := by
    rw [hlow2]; exact occursIn_append_right _ _ (by decide) ds
  have hnoday2 : occursIn "day".data (lowerStr (ds ++ " hours ago".data)) = false := by
    rw [hlow2, Bool.eq_false_iff]
    intro htrue
    have hd : 'd' ∈ ds ++ " hours ago".data :=
      occursIn_chars _ _ htrue 'd' (by decide)
    rcases List.mem_append.mp hd with h | h
    · exact absurd (hdig 'd' h) (by decide)
    · exact absurd h (by decide)
  constructor
  · unfold parse_date
    rw [if_pos rfl, if_pos hago1, hfn1]
    show (if occursIn "day".data (lowerStr (ds ++ " days ago".data)) then
        now - (digitsVal ds : ℤ)
      else if occursIn "hour".data (lowerStr (ds ++ " days ago".data)) then now
      else now) = now - (digitsVal ds : ℤ)
    rw [if_pos hday1]
  · unfold parse_date
    rw [if_pos rfl, if_pos hago2, hfn2]
    show (if occursIn "day".data (lowerStr (ds ++ " hours ago".data)) then
        now - (digitsVal ds : ℤ)
      else if occursIn "hour".data (lowerStr (ds ++ " hours ago".data)) then now
      else now) = now
    rw [if_neg (by simp [hnoday2]), if_pos hhour2]

/-- Witness for C8: `95 days ago` maps to today − 95 and `36 hours ago`
(more than one day's worth of hours) maps to today. -/
theorem parse_date_relative_offsets_witness :
    parse_date "95 days ago".data "The Hacker News".data 1000 = 1000 - 95 ∧
    parse_date "36 hours ago".data "The Hacker News".data 1000 = 1000 := by
  have h1 := (parse_date_relative_offsets "95".data 1000 (by decide) (by decide)).1
  have h2 := (parse_date_relative_offsets "36".data 1000 (by decide) (by decide)).2
  constructor
  · rw [show ("95 days ago".data : Str) = "95".data ++ " days ago".data from by decide]
    rw [h1]
    decide
  · rw [show ("36 hours ago".data : Str) = "36".data ++ " hours ago".data from by decide]
    exact h2
/-- Claim C9: when a target date is supplied, every item an adapter emits
has normalized date equal to the target date, and when the filtered fetch
yields zero items it is the orchestrator (`main`) that falls back to an
unfiltered fetch. -/
theorem target_date_filter :
    (∀ (arts : List RawArticle) (t now : ℤ) (item : NewsItem),
      item ∈ fetch_security_week arts (some t) now → item.date = t) ∧
    (∀ (arts : List RawArticle) (t now : ℤ) (item : NewsItem),
      item ∈ fetch_hacker_news arts (some t) now → item.date = t) ∧
    (∀ e : Env, fetch_security_news e (some e.now) = [] →
      mainItems e = fetch_security_news e none) := by
  refine ⟨?_, ?_, ?_⟩
  · intro arts t now item hmem
    simp only [fetch_security_week, List.mem_filterMap] at hmem
    obtain ⟨a, _, hfa⟩ := hmem
    by_cases hd : parse_date a.dateStr "Security Week".data now = t
    · rw [if_pos hd] at hfa
      have := Option.some.inj hfa
      rw [← this]
      exact hd
    · rw [if_neg hd] at hfa
      cases hfa
  · intro arts t now item hmem
    simp only [fetch_hacker_news, List.mem_filterMap] at hmem
    obtain ⟨a, _, hfa⟩ := hmem
    by_cases hd : parse_date a.dateStr "The Hacker News".data now = t
    · rw [if_pos hd] at hfa
      have := Option.some.inj hfa
      rw [← this]
      exact hd
    · rw [if_neg hd] at hfa
      cases hfa
  · intro e h
    unfold mainItems
    rw [h]
    rfl

/-- Witness for C9: a Hacker News article dated `2 days ago` is emitted by
the filtered fetch for today − 2 with exactly that date, and an
orchestrator run whose filtered fetch is empty uses the unfiltered fetch. -/
theorem target_date_filter_witness :
    (⟨"t".data, "s".data, "The Hacker News".data, "http://a".data, 98,
      categorize_news "t".data "s".data⟩ : NewsItem).date = 98 ∧
    mainItems ⟨[], 0, false, false, false, [], [], false, false,
        fun _ => false, false, fun _ _ => .raised⟩
      = fetch_security_news ⟨[], 0, false, false, false, [], [], false, false,
        fun _ => false, false, fun _ _ => .raised⟩ none :=
  ⟨target_date_filter.2.1
      [⟨"t".data, "s".data, "http://a".data, "2 days ago".data⟩] 98 100 _
      (by decide),
   target_date_filter.2.2 _ (by decide)⟩
/-- Counterexample to Claim C6 as stated: with storage initialization
succeeding (`initFails = false`) but the `sqlite3.connect` call inside
`store_news` failing, the run propagates a storage failure to the caller
of `main` that is not a storage initialization failure (`store_news`
re-raises at update_news.py lines 101-103, and `main` re-raises at lines
242-244). -/
theorem main_run_store_failure_propagates :
    main_run ⟨[], 0, false, false, false,
        [⟨"t".data, "s".data, "http://a".data, "2024-01-01".data⟩], [],
        true, false, fun _ => false, false, fun _ _ => .raised⟩
      = .error .storeFailure ∧
    StorageFailure.storeFailure ≠ StorageFailure.initFailure := by
  exact ⟨rfl, by decide⟩

lemma storeFold_error_count (analyze : Str → Str → Str) (f : NewsItem → Bool) :
    ∀ (items : List NewsItem) (acc : List Record × StoreStats),
      ((items.foldl (storeStep analyze f) acc).2).error_items
        = acc.2.error_items + items.countP f := by
  intro items
  induction items with
  | nil => intro acc; simp
  | cons i t ih =>
    intro acc
    rw [List.foldl_cons, ih, List.countP_cons]
    by_cases hf : f i = true
    · simp [storeStep, hf]
      omega
    · simp only [Bool.not_eq_true] at hf
      by_cases ha : acc.1.any (fun r => decide (r.url = i.url)) = true
      · simp [storeStep, hf, ha]
      · simp only [Bool.not_eq_true] at ha
        simp [storeStep, hf, ha]

/-- Claim C6, amended: per-adapter and per-item errors never propagate out
of a run (a run with working storage succeeds whatever the adapters, the
items or the collaborator do, and the per-item errors are counted in the
store statistics); the failures that do propagate to the caller of `main`
are storage initialization failures and the storage connection/commit
failures re-raised by `store_news`. -/
theorem main_run_failure_propagation :
    ∀ e : Env,
      (e.initFails = true → main_run e = .error .initFailure) ∧
      (e.initFails = false → e.connectFails = false → e.commitFails = false →
        ∃ r, main_run e = .ok r) ∧
      (∀ f, main_run e = .error f →
        e.initFails = true ∨
        (f = .storeFailure ∧ (e.connectFails = true ∨ e.commitFails = true))) ∧
      (∀ db st d, main_run e = .ok (db, some (st, d)) →
        st.error_items = (mainItems e).countP e.itemFails) := by
  intro e
  refine ⟨?_, ?_, ?_, ?_⟩
  · intro h
    unfold main_run
    rw [if_pos h]
  · intro h1 h2 h3
    unfold main_run
    rw [if_neg (by simp [h1])]
    by_cases hi : (mainItems e).isEmpty = true
    · rw [if_pos hi]
      exact ⟨(e.db0, none), rfl⟩
    · rw [if_neg hi, h2, h3]
      exact ⟨_, rfl⟩
  · intro f hf
    unfold main_run at hf
    by_cases h1 : e.initFails = true
    · exact Or.inl h1
    · right
      rw [if_neg h1] at hf
      by_cases hi : (mainItems e).isEmpty = true
      · rw [if_pos hi] at hf
        cases hf
      · rw [if_neg hi] at hf
        rcases hs : store_news (envAnalyze e) e.itemFails e.connectFails
            e.commitFails (mainItems e) e.db0 with f' | pair
        · rw [hs] at hf
          simp only [] at hf
          have hff : f = f' := (Except.error.inj hf).symm
          unfold store_news at hs
          by_cases hc : e.connectFails = true
          · rw [if_pos hc] at hs
            exact ⟨hff.trans (Except.error.inj hs).symm, Or.inl hc⟩
          · rw [if_neg hc] at hs
            by_cases hm : e.commitFails = true
            · rw [if_pos hm] at hs
              exact ⟨hff.trans (Except.error.inj hs).symm, Or.inr hm⟩
            · rw [if_neg hm] at hs
              cases hs
        · obtain ⟨db1, st1⟩ := pair
          rw [hs] at hf
          simp only [] at hf
          cases hf
  · intro db st d h
    unfold main_run at h
    by_cases h1 : e.initFails = true
    · rw [if_pos h1] at h
      cases h
    · rw [if_neg h1] at h
      by_cases hi : (mainItems e).isEmpty = true
      · rw [if_pos hi] at h
        simp at h
      · rw [if_neg hi] at h
        rcases hs : store_news (envAnalyze e) e.itemFails e.connectFails
            e.commitFails (mainItems e) e.db0 with f' | pair
        · rw [hs] at h
          simp only [] at h
          cases h
        · obtain ⟨db1, st1⟩ := pair
          rw [hs] at h
          simp only [] at h
          have hst : st1 = st := by
            have := Except.ok.inj h
            have h2 := (Prod.mk.injEq _ _ _ _).mp this
            have h3 := (Option.some.inj h2.2)
            exact ((Prod.mk.injEq _ _ _ _).mp h3).1
          unfold store_news at hs
          by_cases hc : e.connectFails = true
          · rw [if_pos hc] at hs
            cases hs
          · rw [if_neg hc] at hs
            by_cases hm : e.commitFails = true
            · rw [if_pos hm] at hs
              cases hs
            · rw [if_neg hm] at hs
              have hfold := Except.ok.inj hs
              rw [← hst]
              have : st1 = ((mainItems e).foldl
                  (storeStep (envAnalyze e) e.itemFails) (e.db0, ⟨0, 0, 0⟩)).2 := by
                rw [hfold]
              rw [this, storeFold_error_count]
              simp

/-- Witness for the amended C6: a run with failing adapters, a raised
collaborator call and a per-item failure still succeeds when storage
works; a run with failing storage initialization propagates exactly the
initialization failure. -/
theorem main_run_failure_propagation_witness :
    (∃ r, main_run ⟨[], 0, false, true, true,
        [⟨"t".data, "s".data, "http://a".data, "2024-01-01".data⟩], [],
        false, false, fun _ => true, false, fun _ _ => .raised⟩ = .ok r) ∧
    main_run ⟨[], 0, true, false, false, [], [], false, false,
        fun _ => false, false, fun _ _ => .raised⟩ = .error .initFailure :=
  ⟨(main_run_failure_propagation _).2.1 rfl rfl rfl,
   (main_run_failure_propagation _).1 rfl⟩
/-- Witness for C3: a title and summary containing no keyword get the
fallback category. -/
theorem categorize_news_weighted_priority_witness :
    categorize_news "x".data "".data = "Threat Intelligence".data :=
  (categorize_news_weighted_priority.1 "x".data "".data).2.1 (by decide)

/-- Witness for C5: a second consecutive sweep over a concrete table
deletes zero records. -/
theorem cleanup_old_news_retention_witness :
    (cleanup_old_news
      (cleanup_old_news
        [⟨"t".data, "s".data, "src".data, "http://u".data, 100,
          "c".data, "a".data, "Unknown".data⟩,
         ⟨"t2".data, "s2".data, "src".data, "http://v".data, 900,
          "c".data, "a".data, "Unknown".data⟩] 1000).1 1000).2 = 0 :=
  (cleanup_old_news_retention
    [⟨"t".data, "s".data, "src".data, "http://u".data, 100,
      "c".data, "a".data, "Unknown".data⟩,
     ⟨"t2".data, "s2".data, "src".data, "http://v".data, 900,
      "c".data, "a".data, "Unknown".data⟩] 1000).2.2
